import Mathlib

/-!
Shallow embedding of the BitsDraw wasm image-processing kernel
(src/wasm-src/src/lib.rs) and proofs about its four algorithms.

Modelling conventions:
- A Rust byte buffer (Vec<u8> or a u8 slice) is a List Nat whose entries are
  intended to lie in [0,255]; theorems that need the u8 range carry it as a
  hypothesis.
- Rust i16/i32 arithmetic is Int (no intermediate value in these algorithms
  leaves the i16 range when the buffer entries are bytes); Rust integer
  division on signed values truncates toward zero, which is Int.tdiv.
- The f32 parameters reach the algorithms only through saturating
  float-to-integer casts (value truncated toward zero, then clamped to the
  target range); a parameter is therefore modelled by the Int it truncates
  to, and the casts by f32_as_u8 / f32_as_usize below (usize is 32 bits on
  the wasm32 target).
- Out-of-contract indexing (buffer length different from width*height, which
  the source does not defend against) is modelled by the total List.getD /
  List.set (read 0, drop the write) in the pixel scans; in flood fill, where
  the loop's progress depends on the indexed write actually happening, the
  Rust panic of an out-of-bounds index is modelled by Option.none.
-/

/-- Result record returned by every operation: success flag, error message
and output byte buffer, mirroring the ProcessResult struct. -/
structure ProcessResult where
  success : Bool
  error : String
  data : List Nat
deriving DecidableEq, Repr

/-- Rust saturating cast of an f32 to u8, applied to the integer the float
truncates to: clamp into [0,255]. -/
def f32_as_u8 (x : Int) : Nat := (max 0 (min x 255)).toNat

/-- Rust saturating cast of an f32 to usize on wasm32, applied to the integer
the float truncates to: clamp into [0, 2^32-1]. -/
def f32_as_usize (x : Int) : Nat := (max 0 (min x (2 ^ 32 - 1))).toNat

/-- Transcription of clamp_pixel: clamp an i16 value into the u8 range. -/
def clamp_pixel (value : Int) : Nat :=
  if value < 0 then 0
  else if 255 < value then 255
  else value.toNat

/-- One error-diffusion write of the Floyd-Steinberg loop: add the term t to
the byte at index i and clamp, as in
result[i] = clamp_pixel(result[i] as i16 + t). -/
def diffuseAt (b : List Nat) (i : Nat) (t : Int) : List Nat :=
  b.set i (clamp_pixel ((b.getD i 0 : Int) + t))

/-- Body of the Floyd-Steinberg double loop for the pixel at (x, y):
binarize against the threshold, then diffuse the residual to the right,
below-left, below and below-right neighbours that exist, in source order. -/
def fsPixel (w h threshold : Nat) (b : List Nat) (y x : Nat) : List Nat :=
  let idx := y * w + x
  let old_pixel := b.getD idx 0
  let new_pixel : Nat := if old_pixel > threshold then 255 else 0
  let error : Int := (old_pixel : Int) - (new_pixel : Int)
  let b1 := b.set idx new_pixel
  let b2 := if x + 1 < w then
      diffuseAt b1 (y * w + (x + 1)) (Int.tdiv (error * 7) 16) else b1
  if y + 1 < h then
    let b3 := if x > 0 then
        diffuseAt b2 ((y + 1) * w + (x - 1)) (Int.tdiv (error * 3) 16) else b2
    let b4 := diffuseAt b3 ((y + 1) * w + x) (Int.tdiv (error * 5) 16)
    if x + 1 < w then
      diffuseAt b4 ((y + 1) * w + (x + 1)) (Int.tdiv (error * 1) 16) else b4
  else b2

/-- Inner loop for x in 0..n of a row-major pixel scan. -/
def rowFold (step : List Nat → Nat → Nat → List Nat) (y : Nat) (b : List Nat)
    (n : Nat) : List Nat :=
  (List.range n).foldl (fun acc x => step acc y x) b

/-- Outer loop for y in 0..m of a row-major pixel scan with rows of width w. -/
def gridFold (step : List Nat → Nat → Nat → List Nat) (w : Nat) (b : List Nat)
    (m : Nat) : List Nat :=
  (List.range m).foldl (fun acc y => rowFold step y acc w) b

/-- Transcription of floyd_steinberg_impl. -/
def floyd_steinberg_impl (pixels : List Nat) (width height : Nat)
    (params : List Int) : ProcessResult :=
  if params.isEmpty then
    { success := false
      error := "Floyd-Steinberg requires threshold parameter"
      data := [] }
  else
    { success := true
      error := ""
      data := gridFold (fsPixel width height (f32_as_u8 (params.getD 0 0)))
        width pixels height }

/-- Bayer matrix constant BAYER_2X2. -/
def BAYER_2X2 : List Nat := [0, 128, 192, 64]

/-- Bayer matrix constant BAYER_4X4. -/
def BAYER_4X4 : List Nat :=
  [0, 128, 32, 160,
   192, 64, 224, 96,
   48, 176, 16, 144,
   240, 112, 208, 80]

/-- Bayer matrix constant BAYER_8X8. -/
def BAYER_8X8 : List Nat :=
  [0, 128, 32, 160, 8, 136, 40, 168,
   192, 64, 224, 96, 200, 72, 232, 104,
   48, 176, 16, 144, 56, 184, 24, 152,
   240, 112, 208, 80, 248, 120, 216, 88,
   12, 140, 44, 172, 4, 132, 36, 164,
   204, 76, 236, 108, 196, 68, 228, 100,
   60, 188, 28, 156, 52, 180, 20, 148,
   252, 124, 220, 92, 244, 116, 212, 84]

/-- Body of the Bayer double loop for the pixel at (x, y): threshold the
pixel against the matrix-adjusted threshold, with i16 arithmetic and
truncating division as in the source. -/
def bayerStep (w size threshold : Nat) (m : List Nat) (b : List Nat)
    (y x : Nat) : List Nat :=
  let idx := y * w + x
  let pixel := b.getD idx 0
  let dither_value := m.getD ((y % size) * size + (x % size)) 0
  let adjusted_threshold : Int :=
    (threshold : Int) + Int.tdiv ((dither_value : Int) - 128) 4
  b.set idx (if (pixel : Int) > adjusted_threshold then 255 else 0)

/-- Transcription of bayer_dither_impl. -/
def bayer_dither_impl (pixels : List Nat) (width height : Nat)
    (params : List Int) : ProcessResult :=
  if params.isEmpty then
    { success := false
      error := "Bayer dither requires matrix size parameter"
      data := [] }
  else
    let matrix_size := f32_as_usize (params.getD 0 0)
    let threshold :=
      if params.length > 1 then f32_as_u8 (params.getD 1 0) else 128
    let bayer_matrix : Option (List Nat) :=
      if matrix_size = 2 then some BAYER_2X2
      else if matrix_size = 4 then some BAYER_4X4
      else if matrix_size = 8 then some BAYER_8X8
      else none
    match bayer_matrix with
    | none =>
      { success := false
        error := "Unsupported Bayer matrix size: " ++ toString matrix_size
        data := [] }
    | some m =>
      { success := true
        error := ""
        data := gridFold (bayerStep width matrix_size threshold m)
          width pixels height }

/-- Count of cells of the buffer holding the value v (the termination measure
of the flood-fill work-list loop). -/
def countOrig (b : List Nat) (v : Nat) : Nat := b.count v

/-- Work-list loop of flood_fill_impl. The stack head is the most recently
pushed coordinate (Rust Vec push/pop). Returns none when the loop would
index outside the buffer, which in the source is a panic; hne records the
fact, established by the short-circuit before the loop starts, that the fill
value differs from the original value. -/
def floodLoop (w h orig fill : Nat) (hne : orig ≠ fill) (b : List Nat)
    (stack : List (Nat × Nat)) : Option (List Nat) :=
  match stack with
  | [] => some b
  | (x, y) :: rest =>
    if x ≥ w ∨ y ≥ h then floodLoop w h orig fill hne b rest
    else
      if hidx : y * w + x < b.length then
        if hval : b.getD (y * w + x) 0 ≠ orig then
          floodLoop w h orig fill hne b rest
        else
          let b2 := b.set (y * w + x) fill
          let s1 := if x > 0 then (x - 1, y) :: rest else rest
          let s2 := if x + 1 < w then (x + 1, y) :: s1 else s1
          let s3 := if y > 0 then (x, y - 1) :: s2 else s2
          let s4 := if y + 1 < h then (x, y + 1) :: s3 else s3
          floodLoop w h orig fill hne b2 s4
      else none
  termination_by (countOrig b orig, stack.length)
  decreasing_by
  · exact Prod.Lex.right _ (Nat.lt_succ_self _)
  · exact Prod.Lex.right _ (Nat.lt_succ_self _)
  · refine Prod.Lex.left _ _ ?_
    have hget : b[y * w + x] = orig := by
      have := List.getD_eq_getElem b 0 hidx
      omega
    have hmem : orig ∈ b := hget ▸ List.getElem_mem hidx
    have hpos : 0 < b.count orig := List.count_pos_iff.mpr hmem
    have h1 : (b[y * w + x] == orig) = true := beq_iff_eq.mpr hget
    have h2 : (fill == orig) = false := beq_eq_false_iff_ne.mpr (Ne.symm hne)
    show countOrig (b.set (y * w + x) fill) orig < countOrig b orig
    unfold countOrig
    rw [List.count_set fill orig b (y * w + x) hidx, h1, h2, if_pos rfl,
      if_neg (by simp)]
    omega

/-- Transcription of flood_fill_impl; none models the panic of an
out-of-bounds index when the buffer is shorter than width*height. -/
def flood_fill_impl (pixels : List Nat) (width height : Nat)
    (params : List Int) : Option ProcessResult :=
  if params.length < 3 then
    some { success := false
           error := "Flood fill requires x, y, fill_value parameters"
           data := [] }
  else
    let start_x := f32_as_usize (params.getD 0 0)
    let start_y := f32_as_usize (params.getD 1 0)
    let fill_value := f32_as_u8 (params.getD 2 0)
    if start_x ≥ width ∨ start_y ≥ height then
      some { success := false
             error := "Fill coordinates out of bounds"
             data := [] }
    else
      if _hidx : start_y * width + start_x < pixels.length then
        let original_value := pixels.getD (start_y * width + start_x) 0
        if hfe : original_value = fill_value then
          some { success := true, error := "", data := pixels }
        else
          (floodLoop width height original_value fill_value hfe pixels
            [(start_x, start_y)]).map
            (fun b => { success := true, error := "", data := b })
      else none

/-- Window accumulation of box_blur_impl: fold over the clipped window rows
[y_start, y_end) and columns [x_start, x_end), accumulating the running
(sum, count) pair. The sum is a u32 in the source, so each addition wraps
modulo 2^32 (release semantics; a debug build would panic at the same
point). The count is also a u32, but it never exceeds the window size,
which is bounded by the buffer length and hence below 2^32 for any buffer
representable on wasm32, so it is modelled as a plain Nat. -/
def boxWindow (pixels : List Nat) (w y_start y_end x_start x_end : Nat) :
    Nat × Nat :=
  (List.range' y_start (y_end - y_start)).foldl
    (fun acc blur_y =>
      (List.range' x_start (x_end - x_start)).foldl
        (fun acc2 blur_x =>
          ((acc2.1 + pixels.getD (blur_y * w + blur_x) 0) % 2 ^ 32,
            acc2.2 + 1))
        acc)
    (0, 0)

/-- Value stored by box_blur_impl at output pixel (x, y): the truncated mean
of the clipped window, cast to u8. -/
def boxVal (pixels : List Nat) (w h radius y x : Nat) : Nat :=
  let y_start := y - radius
  let y_end := min (y + radius + 1) h
  let x_start := x - radius
  let x_end := min (x + radius + 1) w
  let sc := boxWindow pixels w y_start y_end x_start x_end
  (sc.1 / sc.2) % 256

/-- Body of the box-blur double loop for output pixel (x, y). -/
def boxStep (pixels : List Nat) (w h radius : Nat) (b : List Nat)
    (y x : Nat) : List Nat :=
  b.set (y * w + x) (boxVal pixels w h radius y x)

/-- Transcription of box_blur_impl; the output starts as the zero buffer
vec![0u8; w*h] and windows always read the untouched input. -/
def box_blur_impl (pixels : List Nat) (width height : Nat)
    (params : List Int) : ProcessResult :=
  if params.isEmpty then
    { success := false
      error := "Box blur requires radius parameter"
      data := [] }
  else
    { success := true
      error := ""
      data := gridFold
        (boxStep pixels width height (f32_as_usize (params.getD 0 0)))
        width (List.replicate (width * height) 0) height }

/-- Transcription of process_safe: dispatch on the operation name. The
Option layer carries the possible panic of flood_fill_impl. -/
def process_safe (operation : String) (pixels : List Nat)
    (width height : Nat) (params : List Int) : Option ProcessResult :=
  if operation = "floyd_steinberg" then
    some (floyd_steinberg_impl pixels width height params)
  else if operation = "bayer_dither" then
    some (bayer_dither_impl pixels width height params)
  else if operation = "flood_fill" then
    flood_fill_impl pixels width height params
  else if operation = "box_blur" then
    some (box_blur_impl pixels width height params)
  else
    some { success := false
           error := "Unknown operation: " ++ operation
           data := [] }

/-- Diffusion kernel of the error-diffusion spec, as (dy, dx, weight) triples
in the order the spec lists them: right 7/16, below-left 3/16, below 5/16,
below-right 1/16 (all in sixteenths). -/
def specKernel : List (Int × Int × Int) :=
  [(0, 1, 7), (1, -1, 3), (1, 0, 5), (1, 1, 1)]

/-- One diffusion term of the spec: if the target (x+dx, y+dy) is inside the
grid, multiply the residual by the weight first, divide by 16 with truncating
division, add to the target byte and clamp; out-of-range targets are skipped
with no wraparound. -/
def specDiffuseTerm (w h : Nat) (residual : Int) (y x : Nat) (b : List Nat)
    (t : Int × Int × Int) : List Nat :=
  let ty : Int := (y : Int) + t.1
  let tx : Int := (x : Int) + t.2.1
  if 0 ≤ ty ∧ ty < (h : Int) ∧ 0 ≤ tx ∧ tx < (w : Int) then
    let i := ty.toNat * w + tx.toNat
    b.set i (clamp_pixel ((b.getD i 0 : Int) + Int.tdiv (residual * t.2.2) 16))
  else b

/-- Per-pixel step written from the words of the spec: binarize the pixel
against the threshold (value greater than threshold gives 255, else 0), then
fold the four kernel terms over the buffer with the signed residual
old - new, each term independent of the others. -/
def specPixel (w h threshold : Nat) (b : List Nat) (y x : Nat) : List Nat :=
  let idx := y * w + x
  let old : Nat := b.getD idx 0
  let nw : Nat := if old > threshold then 255 else 0
  specKernel.foldl (specDiffuseTerm w h ((old : Int) - (nw : Int)) y x)
    (b.set idx nw)

theorem getD_set_self (l : List Nat) (i v : Nat) (h : i < l.length) :
    (l.set i v).getD i 0 = v := by
  rw [List.getD_eq_getElem?_getD, List.getElem?_set]
  simp [h]

theorem getD_set_other (l : List Nat) {i j : Nat} (v : Nat) (h : i ≠ j) :
    (l.set i v).getD j 0 = l.getD j 0 := by
  rw [List.getD_eq_getElem?_getD, List.getElem?_set, if_neg h,
    ← List.getD_eq_getElem?_getD]

theorem countOrig_set_lt (l : List Nat) (i v a : Nat) (hi : i < l.length)
    (hv : l.getD i 0 = a) (hne : v ≠ a) :
    countOrig (l.set i v) a < countOrig l a := by
  have hget : l[i] = a := by
    have := List.getD_eq_getElem l 0 hi
    omega
  have hmem : a ∈ l := hget ▸ List.getElem_mem hi
  have hpos : 0 < l.count a := List.count_pos_iff.mpr hmem
  have h1 : (l[i] == a) = true := beq_iff_eq.mpr hget
  have h2 : (v == a) = false := beq_eq_false_iff_ne.mpr hne
  unfold countOrig
  rw [List.count_set v a l i hi, h1, h2, if_pos rfl, if_neg (by simp)]
  omega

theorem flat_lt (w h y x : Nat) (hy : y < h) (hx : x < w) :
    y * w + x < w * h := by
  have h1 : y * w + x < (y + 1) * w := by
    have hh : (y + 1) * w = y * w + w := by ring
    omega
  have h2 : (y + 1) * w ≤ h * w := Nat.mul_le_mul_right w hy
  have h3 : w * h = h * w := Nat.mul_comm w h
  exact lt_of_lt_of_le h1 (h3 ▸ h2)

theorem flat_div (w y x : Nat) (hx : x < w) : (y * w + x) / w = y := by
  have hw : 0 < w := by omega
  rw [Nat.mul_comm y w, Nat.mul_add_div hw, Nat.div_eq_of_lt hx]
  rfl

theorem flat_mod (w y x : Nat) (hx : x < w) : (y * w + x) % w = x := by
  rw [Nat.mul_comm y w, Nat.mul_add_mod, Nat.mod_eq_of_lt hx]

theorem rowFold_zero (step : List Nat → Nat → Nat → List Nat) (y : Nat)
    (b : List Nat) : rowFold step y b 0 = b := rfl

theorem rowFold_succ (step : List Nat → Nat → Nat → List Nat) (y : Nat)
    (b : List Nat) (n : Nat) :
    rowFold step y b (n + 1) = step (rowFold step y b n) y n := by
  unfold rowFold
  rw [List.range_succ, List.foldl_append]
  rfl

theorem gridFold_zero (step : List Nat → Nat → Nat → List Nat) (w : Nat)
    (b : List Nat) : gridFold step w b 0 = b := rfl

theorem gridFold_succ (step : List Nat → Nat → Nat → List Nat) (w : Nat)
    (b : List Nat) (m : Nat) :
    gridFold step w b (m + 1) = rowFold step m (gridFold step w b m) w := by
  unfold gridFold
  rw [List.range_succ, List.foldl_append]
  rfl

theorem rowFold_length (step : List Nat → Nat → Nat → List Nat)
    (hstep : ∀ b y x, (step b y x).length = b.length) (y : Nat)
    (b : List Nat) (n : Nat) : (rowFold step y b n).length = b.length := by
  induction n with
  | zero => rfl
  | succ n ih => rw [rowFold_succ, hstep, ih]

theorem gridFold_length (step : List Nat → Nat → Nat → List Nat)
    (hstep : ∀ b y x, (step b y x).length = b.length) (w : Nat)
    (b : List Nat) (m : Nat) : (gridFold step w b m).length = b.length := by
  induction m with
  | zero => rfl
  | succ m ih => rw [gridFold_succ, rowFold_length step hstep, ih]

theorem rowFold_congr {f g : List Nat → Nat → Nat → List Nat} (y n : Nat)
    (h : ∀ b x, x < n → f b y x = g b y x) (b : List Nat) :
    rowFold f y b n = rowFold g y b n := by
  induction n with
  | zero => rfl
  | succ n ih =>
    rw [rowFold_succ, rowFold_succ, ih (fun b x hx => h b x (by omega)),
      h _ n (by omega)]

theorem gridFold_congr {f g : List Nat → Nat → Nat → List Nat} (w m : Nat)
    (h : ∀ b y x, y < m → x < w → f b y x = g b y x) (b : List Nat) :
    gridFold f w b m = gridFold g w b m := by
  induction m with
  | zero => rfl
  | succ m ih =>
    rw [gridFold_succ, gridFold_succ,
      ih (fun b y x hy hx => h b y x (by omega) hx),
      rowFold_congr m w (fun b x hx => h b m x (by omega) hx)]

theorem rowFold_set_agrees (w h : Nat) (val : Nat → Nat → Nat → Nat)
    (step : List Nat → Nat → Nat → List Nat)
    (hstep : ∀ b y x,
      step b y x = b.set (y * w + x) (val (b.getD (y * w + x) 0) y x))
    (init : List Nat) (y : Nat) (hy : y < h) :
    ∀ n, n ≤ w → ∀ b, b.length = w * h →
      (∀ j, j < w * h → b.getD j 0 =
        if j < y * w then val (init.getD j 0) (j / w) (j % w)
        else init.getD j 0) →
      ∀ j, j < w * h → (rowFold step y b n).getD j 0 =
        if j < y * w + n then val (init.getD j 0) (j / w) (j % w)
        else init.getD j 0 := by
  intro n
  induction n with
  | zero =>
    intro _ b hb hagree j hj
    rw [rowFold_zero]
    simpa using hagree j hj
  | succ n ih =>
    intro hn b hb hagree j hj
    have hsteplen : ∀ b y x, (step b y x).length = b.length := by
      intro b yy xx
      rw [hstep]
      exact List.length_set _ _ _
    rw [rowFold_succ, hstep]
    have hclen : (rowFold step y b n).length = w * h := by
      rw [rowFold_length step hsteplen, hb]
    have hcagree := ih (by omega) b hb hagree
    have hidxlt : y * w + n < w * h := flat_lt w h y n hy (by omega)
    have hcur : (rowFold step y b n).getD (y * w + n) 0 =
        init.getD (y * w + n) 0 := by
      have hh := hcagree (y * w + n) hidxlt
      rw [if_neg (by omega)] at hh
      exact hh
    rw [hcur]
    by_cases hje : j = y * w + n
    · subst hje
      rw [getD_set_self _ _ _ (by rw [hclen]; exact hidxlt)]
      rw [if_pos (by omega)]
      rw [flat_div w y n (by omega), flat_mod w y n (by omega)]
    · rw [getD_set_other _ _ (fun hh => hje hh.symm)]
      rw [hcagree j hj]
      by_cases hjlt : j < y * w + n
      · rw [if_pos (by omega), if_pos (by omega)]
      · rw [if_neg (by omega), if_neg (by omega)]

theorem gridFold_set_agrees (w h : Nat) (val : Nat → Nat → Nat → Nat)
    (step : List Nat → Nat → Nat → List Nat)
    (hstep : ∀ b y x,
      step b y x = b.set (y * w + x) (val (b.getD (y * w + x) 0) y x))
    (init : List Nat) (hlen : init.length = w * h) :
    ∀ m, m ≤ h → ∀ j, j < w * h →
      (gridFold step w init m).getD j 0 =
        if j < m * w then val (init.getD j 0) (j / w) (j % w)
        else init.getD j 0 := by
  intro m
  induction m with
  | zero =>
    intro _ j hj
    rw [gridFold_zero, if_neg (by omega)]
  | succ m ih =>
    intro hm j hj
    have hsteplen : ∀ b y x, (step b y x).length = b.length := by
      intro b yy xx
      rw [hstep]
      exact List.length_set _ _ _
    rw [gridFold_succ]
    have hglen : (gridFold step w init m).length = w * h := by
      rw [gridFold_length step hsteplen, hlen]
    have hrow := rowFold_set_agrees w h val step hstep init m (by omega) w
      le_rfl (gridFold step w init m) hglen (ih (by omega)) j hj
    rw [hrow]
    have harith : m * w + w = (m + 1) * w := by ring
    rw [harith]

theorem gridFold_set_getD (w h : Nat) (val : Nat → Nat → Nat → Nat)
    (step : List Nat → Nat → Nat → List Nat)
    (hstep : ∀ b y x,
      step b y x = b.set (y * w + x) (val (b.getD (y * w + x) 0) y x))
    (init : List Nat) (hlen : init.length = w * h)
    (y x : Nat) (hy : y < h) (hx : x < w) :
    (gridFold step w init h).getD (y * w + x) 0 =
      val (init.getD (y * w + x) 0) y x := by
  have hj : y * w + x < w * h := flat_lt w h y x hy hx
  have hh := gridFold_set_agrees w h val step hstep init hlen h le_rfl
    (y * w + x) hj
  have hcomm : h * w = w * h := Nat.mul_comm h w
  rw [hh, if_pos (by omega), flat_div w y x hx, flat_mod w y x hx]

theorem fsPixel_length (w h t : Nat) (b : List Nat) (y x : Nat) :
    (fsPixel w h t b y x).length = b.length := by
  simp only [fsPixel, diffuseAt]
  split_ifs <;> simp [List.length_set]

theorem fsPixel_getD_lt (w h t : Nat) (b : List Nat) (y x j : Nat)
    (hx : x < w) (hj : j < y * w + x) :
    (fsPixel w h t b y x).getD j 0 = b.getD j 0 := by
  have hexp : (y + 1) * w = y * w + w := by ring
  have hne0 : y * w + x ≠ j := by omega
  have hne1 : y * w + (x + 1) ≠ j := by omega
  have hne2 : (y + 1) * w + (x - 1) ≠ j := by omega
  have hne3 : (y + 1) * w + x ≠ j := by omega
  have hne4 : (y + 1) * w + (x + 1) ≠ j := by omega
  simp only [fsPixel, diffuseAt]
  split_ifs <;>
    simp only [getD_set_other, hne0, hne1, hne2, hne3, hne4, ne_eq,
      not_false_iff]

theorem fsPixel_getD_self (w h t : Nat) (b : List Nat) (y x : Nat)
    (hx : x < w) (hidx : y * w + x < b.length) :
    (fsPixel w h t b y x).getD (y * w + x) 0 =
      if b.getD (y * w + x) 0 > t then 255 else 0 := by
  have hexp : (y + 1) * w = y * w + w := by ring
  have hw : 0 < w := by omega
  have hne1 : y * w + (x + 1) ≠ y * w + x := by omega
  have hne2 : (y + 1) * w + (x - 1) ≠ y * w + x := by omega
  have hne3 : (y + 1) * w + x ≠ y * w + x := by omega
  have hne4 : (y + 1) * w + (x + 1) ≠ y * w + x := by omega
  simp only [fsPixel, diffuseAt]
  split_ifs <;>
    (try simp only [getD_set_other, hne1, hne2, hne3, hne4, ne_eq,
      not_false_iff]) <;>
    rw [getD_set_self _ _ _ hidx]

theorem fsRow_binary (w h t y : Nat) (hy : y < h) :
    ∀ n, n ≤ w → ∀ b : List Nat, b.length = w * h →
      (∀ j, j < y * w → b.getD j 0 = 0 ∨ b.getD j 0 = 255) →
      ∀ j, j < y * w + n →
        (rowFold (fsPixel w h t) y b n).getD j 0 = 0 ∨
        (rowFold (fsPixel w h t) y b n).getD j 0 = 255 := by
  intro n
  induction n with
  | zero =>
    intro _ b hb hbin j hj
    rw [rowFold_zero]
    exact hbin j (by omega)
  | succ n ih =>
    intro hn b hb hbin j hj
    have hc := ih (by omega) b hb hbin
    have hclen : (rowFold (fsPixel w h t) y b n).length = w * h := by
      rw [rowFold_length _ (fun b y x => fsPixel_length w h t b y x), hb]
    rw [rowFold_succ]
    by_cases hje : j = y * w + n
    · subst hje
      rw [fsPixel_getD_self w h t _ y n (by omega)
        (by rw [hclen]; exact flat_lt w h y n hy (by omega))]
      by_cases hgt : (rowFold (fsPixel w h t) y b n).getD (y * w + n) 0 > t
      · rw [if_pos hgt]
        right
        rfl
      · rw [if_neg hgt]
        left
        rfl
    · rw [fsPixel_getD_lt w h t _ y n j (by omega) (by omega)]
      exact hc j (by omega)

theorem fsGrid_binary (w h t : Nat) (pixels : List Nat)
    (hlen : pixels.length = w * h) :
    ∀ m, m ≤ h → ∀ j, j < m * w →
      (gridFold (fsPixel w h t) w pixels m).getD j 0 = 0 ∨
      (gridFold (fsPixel w h t) w pixels m).getD j 0 = 255 := by
  intro m
  induction m with
  | zero =>
    intro _ j hj
    omega
  | succ m ih =>
    intro hm j hj
    have hglen : (gridFold (fsPixel w h t) w pixels m).length = w * h := by
      rw [gridFold_length _ (fun b y x => fsPixel_length w h t b y x), hlen]
    rw [gridFold_succ]
    have harith : (m + 1) * w = m * w + w := by ring
    exact fsRow_binary w h t m (by omega) w le_rfl _ hglen
      (fun j hj => ih (by omega) j hj) j (by omega)

/-- Claim C4: for the Error-Diffusion Disperser, on any input buffer of
length width*height and non-empty parameter list, every byte of the returned
output buffer is either 0 or 255. -/
theorem floyd_steinberg_output_binary (pixels : List Nat) (w h : Nat)
    (params : List Int) (hlen : pixels.length = w * h) (hp : params ≠ []) :
    ∀ v ∈ (floyd_steinberg_impl pixels w h params).data,
      v = 0 ∨ v = 255 := by
  intro v hv
  have hpe : params.isEmpty = false := by
    cases params with
    | nil => exact absurd rfl hp
    | cons a l => rfl
  unfold floyd_steinberg_impl at hv
  rw [hpe] at hv
  simp only [Bool.false_eq_true, if_false] at hv
  set t := f32_as_u8 (params.getD 0 0) with ht
  have hdlen : (gridFold (fsPixel w h t) w pixels h).length = w * h := by
    rw [gridFold_length _ (fun b y x => fsPixel_length w h t b y x), hlen]
  rcases List.mem_iff_get.mp hv with ⟨⟨i, hi⟩, hget⟩
  have hi2 : i < w * h := by rw [hdlen] at hi; exact hi
  have hgd : (gridFold (fsPixel w h t) w pixels h).getD i 0 = v := by
    rw [List.getD_eq_getElem _ 0 hi]
    simpa using hget
  have hcomm : h * w = w * h := Nat.mul_comm h w
  have := fsGrid_binary w h t pixels hlen h le_rfl i (by omega)
  omega

/-- Witness for C4 at a concrete 2 by 2 input. -/
theorem floyd_steinberg_output_binary_witness :
    (floyd_steinberg_impl [10, 200, 10, 200] 2 2 [128]).data.getD 1 0 = 0 ∨
    (floyd_steinberg_impl [10, 200, 10, 200] 2 2 [128]).data.getD 1 0 = 255 :=
  floyd_steinberg_output_binary [10, 200, 10, 200] 2 2 [128] (by decide)
    (by decide) _ (by decide)

theorem fsPixel_eq_specPixel (w h t : Nat) (b : List Nat) (y x : Nat)
    (hy : y < h) (hx : x < w) :
    fsPixel w h t b y x = specPixel w h t b y x := by
  have c1 : (0 ≤ (y:Int) + 0 ∧ (y:Int) + 0 < (h:Int) ∧ 0 ≤ (x:Int) + 1 ∧
      (x:Int) + 1 < (w:Int)) ↔ (x + 1 < w) := by omega
  have c2 : (0 ≤ (y:Int) + 1 ∧ (y:Int) + 1 < (h:Int) ∧ 0 ≤ (x:Int) + -1 ∧
      (x:Int) + -1 < (w:Int)) ↔ (y + 1 < h ∧ 0 < x) := by omega
  have c3 : (0 ≤ (y:Int) + 1 ∧ (y:Int) + 1 < (h:Int) ∧ 0 ≤ (x:Int) + 0 ∧
      (x:Int) + 0 < (w:Int)) ↔ (y + 1 < h) := by omega
  have c4 : (0 ≤ (y:Int) + 1 ∧ (y:Int) + 1 < (h:Int) ∧ 0 ≤ (x:Int) + 1 ∧
      (x:Int) + 1 < (w:Int)) ↔ (y + 1 < h ∧ x + 1 < w) := by omega
  have e1 : ((y:Int) + 0).toNat = y := by omega
  have e2 : ((y:Int) + 1).toNat = y + 1 := by omega
  have e3 : ((x:Int) + 1).toNat = x + 1 := by omega
  have e4 : ((x:Int) + 0).toNat = x := by omega
  have e5 : ((x:Int) + -1).toNat = x - 1 := by omega
  by_cases hx1 : x + 1 < w <;> by_cases hy1 : y + 1 < h <;>
    by_cases hx0 : 0 < x <;>
    simp only [fsPixel, specPixel, specKernel, List.foldl_cons,
      List.foldl_nil, specDiffuseTerm, diffuseAt, c1, c2, c3, c4, e1, e2, e3,
      e4, e5, hx1, hy1, hx0, gt_iff_lt, if_true, if_false, and_true,
      true_and, and_false, false_and, and_self, if_pos, if_neg,
      not_false_iff]

/-- Claim C1: for the Error-Diffusion Disperser on a buffer of length
width*height with a non-empty parameter list, the result is a success and
its data is the row-major scan that, at each pixel, binarizes against the
threshold and then applies the four spec kernel terms (right 7/16,
below-left 3/16, below 5/16, below-right 1/16), each term multiplying
before dividing with truncating division independently of the others,
clamping to [0,255] on store and skipping out-of-range targets. -/
theorem floyd_steinberg_matches_error_diffusion_spec (pixels : List Nat)
    (w h : Nat) (params : List Int) (_hlen : pixels.length = w * h)
    (hp : params ≠ []) :
    floyd_steinberg_impl pixels w h params =
      { success := true
        error := ""
        data := gridFold (specPixel w h (f32_as_u8 (params.getD 0 0)))
          w pixels h } := by
  have hpe : params.isEmpty = false := by
    cases params with
    | nil => exact absurd rfl hp
    | cons a l => rfl
  unfold floyd_steinberg_impl
  rw [hpe]
  simp only [Bool.false_eq_true, if_false]
  congr 1
  exact gridFold_congr w h
    (fun b yy xx hyy hxx =>
      fsPixel_eq_specPixel w h (f32_as_u8 (params.getD 0 0)) b yy xx hyy hxx)
    pixels

/-- Witness for C1 at a concrete 2 by 2 input. -/
theorem floyd_steinberg_matches_error_diffusion_spec_witness :
    floyd_steinberg_impl [10, 200, 10, 200] 2 2 [128] =
      { success := true
        error := ""
        data := gridFold
          (specPixel 2 2 (f32_as_u8 (List.getD ([128] : List Int) 0 0)))
          2 [10, 200, 10, 200] 2 } :=
  floyd_steinberg_matches_error_diffusion_spec [10, 200, 10, 200] 2 2 [128]
    (by decide) (by decide)

theorem bayerStep_set (w s thr : Nat) (m : List Nat) :
    ∀ (b : List Nat) (y x : Nat),
      bayerStep w s thr m b y x =
        b.set (y * w + x)
          ((fun (pixel yy xx : Nat) =>
              if (pixel : Int) >
                  (thr : Int) +
                    Int.tdiv ((m.getD ((yy % s) * s + (xx % s)) 0 : Int) - 128)
                      4
              then 255 else 0)
            (b.getD (y * w + x) 0) y x) :=
  fun _ _ _ => rfl

theorem bayer_dither_impl_success (pixels : List Nat) (w h : Nat)
    (params : List Int) (s thr : Nat) (m : List Nat) (hp : params ≠ [])
    (hs : s = f32_as_usize (params.getD 0 0))
    (hthr : thr = if params.length > 1 then f32_as_u8 (params.getD 1 0)
      else 128)
    (hm : (s = 2 ∧ m = BAYER_2X2) ∨ (s = 4 ∧ m = BAYER_4X4) ∨
      (s = 8 ∧ m = BAYER_8X8)) :
    bayer_dither_impl pixels w h params =
      { success := true
        error := ""
        data := gridFold (bayerStep w s thr m) w pixels h } := by
  have hpe : params.isEmpty = false := by
    cases params with
    | nil => exact absurd rfl hp
    | cons a l => rfl
  unfold bayer_dither_impl
  rw [hpe]
  simp only [Bool.false_eq_true, if_false, ← hs, ← hthr]
  rcases hm with ⟨hs2, hm2⟩ | ⟨hs4, hm4⟩ | ⟨hs8, hm8⟩
  · subst hs2
    subst hm2
    rfl
  · subst hs4
    subst hm4
    rfl
  · subst hs8
    subst hm8
    rfl

/-- Claim C2: for the Ordered-Matrix Disperser, when the truncated first
parameter is a matrix size in 2, 4, 8, every output pixel at (x, y) is 255
exactly when the input pixel exceeds base_threshold plus
(matrix_value - 128) / 4 in signed arithmetic with truncating division,
where matrix_value is the cell (y mod size, x mod size) of the fixed Bayer
matrix; any other size yields the failure result; and the three matrices
reproduce the tables of the spec entry for entry. -/
theorem bayer_dither_pointwise_spec :
    (∀ (pixels : List Nat) (w h : Nat) (params : List Int) (s thr : Nat)
      (m : List Nat), pixels.length = w * h → params ≠ [] →
      s = f32_as_usize (params.getD 0 0) →
      thr = (if params.length > 1 then f32_as_u8 (params.getD 1 0)
        else 128) →
      ((s = 2 ∧ m = BAYER_2X2) ∨ (s = 4 ∧ m = BAYER_4X4) ∨
        (s = 8 ∧ m = BAYER_8X8)) →
      ∀ y x, y < h → x < w →
        (bayer_dither_impl pixels w h params).success = true ∧
        (bayer_dither_impl pixels w h params).error = "" ∧
        (bayer_dither_impl pixels w h params).data.getD (y * w + x) 0 =
          (if (pixels.getD (y * w + x) 0 : Int) >
              (thr : Int) +
                Int.tdiv ((m.getD ((y % s) * s + (x % s)) 0 : Int) - 128) 4
            then 255 else 0)) ∧
    (∀ (pixels : List Nat) (w h : Nat) (params : List Int),
      params ≠ [] →
      f32_as_usize (params.getD 0 0) ≠ 2 →
      f32_as_usize (params.getD 0 0) ≠ 4 →
      f32_as_usize (params.getD 0 0) ≠ 8 →
      bayer_dither_impl pixels w h params =
        { success := false
          error := "Unsupported Bayer matrix size: " ++
            toString (f32_as_usize (params.getD 0 0))
          data := [] }) ∧
    (BAYER_2X2 = [0, 128, 192, 64] ∧
      BAYER_4X4 = [0, 128, 32, 160, 192, 64, 224, 96, 48, 176, 16, 144,
        240, 112, 208, 80] ∧
      BAYER_8X8 = [0, 128, 32, 160, 8, 136, 40, 168, 192, 64, 224, 96, 200,
        72, 232, 104, 48, 176, 16, 144, 56, 184, 24, 152, 240, 112, 208, 80,
        248, 120, 216, 88, 12, 140, 44, 172, 4, 132, 36, 164, 204, 76, 236,
        108, 196, 68, 228, 100, 60, 188, 28, 156, 52, 180, 20, 148, 252,
        124, 220, 92, 244, 116, 212, 84]) := by
  refine ⟨?_, ?_, rfl, rfl, rfl⟩
  · intro pixels w h params s thr m hlen hp hs hthr hm y x hy hx
    rw [bayer_dither_impl_success pixels w h params s thr m hp hs hthr hm]
    refine ⟨rfl, rfl, ?_⟩
    exact gridFold_set_getD w h
      (fun (pixel yy xx : Nat) =>
        if (pixel : Int) >
            (thr : Int) +
              Int.tdiv ((m.getD ((yy % s) * s + (xx % s)) 0 : Int) - 128) 4
        then 255 else 0)
      (bayerStep w s thr m) (bayerStep_set w s thr m) pixels hlen y x hy hx
  · intro pixels w h params hp h2 h4 h8
    have hpe : params.isEmpty = false := by
      cases params with
      | nil => exact absurd rfl hp
      | cons a l => rfl
    unfold bayer_dither_impl
    rw [hpe]
    simp only [Bool.false_eq_true, if_false, if_neg h2, if_neg h4, if_neg h8]

/-- Witness for C2 at a concrete 2 by 2 input with the 2 by 2 matrix. -/
theorem bayer_dither_pointwise_spec_witness :
    (bayer_dither_impl [100, 100, 150, 150] 2 2 [2]).data.getD 1 0 = 0 :=
  ((bayer_dither_pointwise_spec.1 [100, 100, 150, 150] 2 2 [2] 2 128
    BAYER_2X2 (by decide) (by decide) (by decide) (by decide)
    (Or.inl ⟨rfl, rfl⟩) 0 1 (by decide) (by decide)).2.2).trans (by decide)

theorem boxRow_fold (pixels : List Nat) (w bY : Nat) :
    ∀ (n xs : Nat) (acc : Nat × Nat), acc.1 < 2 ^ 32 →
      (List.range' xs n).foldl
        (fun acc2 bx =>
          ((acc2.1 + pixels.getD (bY * w + bx) 0) % 2 ^ 32, acc2.2 + 1))
        acc =
      ((acc.1 +
        ((List.range' xs n).map
          (fun bx => pixels.getD (bY * w + bx) 0)).sum) % 2 ^ 32,
        acc.2 + n) := by
  intro n
  induction n with
  | zero =>
    intro xs acc hacc
    obtain ⟨a1, a2⟩ := acc
    simp only [List.range']
    simp only [List.foldl_nil, List.map_nil, List.sum_nil, Prod.mk.injEq]
    constructor
    · simp only at hacc
      omega
    · rfl
  | succ n ih =>
    intro xs acc hacc
    obtain ⟨a1, a2⟩ := acc
    rw [List.range'_succ]
    simp only [List.foldl_cons, List.map_cons, List.sum_cons]
    rw [ih _ ((a1 + pixels.getD (bY * w + xs) 0) % 2 ^ 32, a2 + 1)
      (by simp only []; omega)]
    simp only [Prod.mk.injEq]
    constructor
    · omega
    · omega

theorem boxWindow_aux (pixels : List Nat) (w xs xe : Nat) :
    ∀ (m ys : Nat) (acc : Nat × Nat), acc.1 < 2 ^ 32 →
      (List.range' ys m).foldl
        (fun acc blur_y =>
          (List.range' xs (xe - xs)).foldl
            (fun acc2 blur_x =>
              ((acc2.1 + pixels.getD (blur_y * w + blur_x) 0) % 2 ^ 32,
                acc2.2 + 1))
            acc)
        acc =
      ((acc.1 + ((List.range' ys m).map (fun bY =>
          ((List.range' xs (xe - xs)).map
            (fun bx => pixels.getD (bY * w + bx) 0)).sum)).sum) % 2 ^ 32,
        acc.2 + m * (xe - xs)) := by
  intro m
  induction m with
  | zero =>
    intro ys acc hacc
    obtain ⟨a1, a2⟩ := acc
    simp only [List.range']
    simp only [List.foldl_nil, List.map_nil, List.sum_nil, Prod.mk.injEq]
    constructor
    · simp only at hacc
      omega
    · omega
  | succ m ih =>
    intro ys acc hacc
    obtain ⟨a1, a2⟩ := acc
    rw [List.range'_succ]
    simp only [List.foldl_cons, List.map_cons, List.sum_cons]
    rw [boxRow_fold pixels w ys (xe - xs) xs (a1, a2) hacc]
    rw [ih _ _ (by simp only []; omega)]
    simp only [Prod.mk.injEq]
    have hmul : (m + 1) * (xe - xs) = m * (xe - xs) + (xe - xs) := by ring
    constructor
    · omega
    · omega

theorem boxWindow_eq (pixels : List Nat) (w ys ye xs xe : Nat) :
    boxWindow pixels w ys ye xs xe =
      ((((List.range' ys (ye - ys)).map (fun bY =>
          ((List.range' xs (xe - xs)).map
            (fun bx => pixels.getD (bY * w + bx) 0)).sum)).sum) % 2 ^ 32,
        (ye - ys) * (xe - xs)) := by
  unfold boxWindow
  rw [boxWindow_aux pixels w xs xe (ye - ys) ys (0, 0) (by norm_num)]
  simp

theorem boxStep_set (pixels : List Nat) (w h radius : Nat) :
    ∀ (b : List Nat) (y x : Nat),
      boxStep pixels w h radius b y x =
        b.set (y * w + x)
          ((fun (_ yy xx : Nat) => boxVal pixels w h radius yy xx)
            (b.getD (y * w + x) 0) y x) :=
  fun _ _ _ => rfl

theorem boxVal_radius_zero (pixels : List Nat) (w h y x : Nat) (hy : y < h)
    (hx : x < w) (hp : pixels.getD (y * w + x) 0 < 256) :
    boxVal pixels w h 0 y x = pixels.getD (y * w + x) 0 := by
  simp only [boxVal]
  rw [boxWindow_eq]
  have e1 : min (y + 0 + 1) h - (y - 0) = 1 := by omega
  have e2 : min (x + 0 + 1) w - (x - 0) = 1 := by omega
  rw [e1, e2]
  simp only [Nat.sub_zero, List.range'_one, List.map_cons, List.map_nil,
    List.sum_cons, List.sum_nil, Nat.add_zero, Nat.mul_one, Nat.div_one]
  rw [Nat.mod_eq_of_lt (show pixels.getD (y * w + x) 0 < 2 ^ 32 by omega)]
  exact Nat.mod_eq_of_lt hp

/-- Claim C7: the Box Averager with radius 0 returns the input unchanged. -/
theorem box_blur_radius_zero_identity (pixels : List Nat) (w h : Nat)
    (params : List Int) (hlen : pixels.length = w * h)
    (hbytes : ∀ u ∈ pixels, u < 256) (hp : params ≠ [])
    (hr : f32_as_usize (params.getD 0 0) = 0) :
    box_blur_impl pixels w h params =
      { success := true, error := "", data := pixels } := by
  have hpe : params.isEmpty = false := by
    cases params with
    | nil => exact absurd rfl hp
    | cons a l => rfl
  have hsl : ∀ b yy xx, (boxStep pixels w h 0 b yy xx).length = b.length :=
    fun b yy xx => List.length_set _ _ _
  unfold box_blur_impl
  rw [hpe]
  simp only [Bool.false_eq_true, if_false, hr, ProcessResult.mk.injEq,
    true_and]
  apply List.ext_get
  · rw [gridFold_length _ hsl, List.length_replicate, hlen]
  · intro n h1 h2
    have hn : n < w * h := by
      rw [gridFold_length _ hsl, List.length_replicate] at h1
      exact h1
    have hw : 0 < w := by
      rcases Nat.eq_zero_or_pos w with h0 | h0
      · subst h0
        simp at hn
      · exact h0
    have hyx : (n / w) * w + n % w = n := by
      rw [Nat.mul_comm]
      exact Nat.div_add_mod n w
    have hylt : n / w < h := by
      rw [Nat.div_lt_iff_lt_mul hw]
      have := Nat.mul_comm w h
      omega
    have hxlt : n % w < w := Nat.mod_lt n hw
    have hb : pixels.getD ((n / w) * w + n % w) 0 < 256 := by
      rw [hyx, List.getD_eq_getElem _ 0 h2]
      exact hbytes _ (List.getElem_mem h2)
    have hgd := gridFold_set_getD w h
      (fun (_ yy xx : Nat) => boxVal pixels w h 0 yy xx)
      (boxStep pixels w h 0) (boxStep_set pixels w h 0)
      (List.replicate (w * h) 0) (by simp) (n / w) (n % w) hylt hxlt
    have hbv := boxVal_radius_zero pixels w h (n / w) (n % w) hylt hxlt hb
    have e1 : (gridFold (boxStep pixels w h 0) w (List.replicate (w * h) 0)
        h).get ⟨n, h1⟩ =
        (gridFold (boxStep pixels w h 0) w (List.replicate (w * h) 0)
          h).getD n 0 :=
      (List.getD_eq_getElem _ 0 h1).symm
    have e2 : pixels.get ⟨n, h2⟩ = pixels.getD n 0 :=
      (List.getD_eq_getElem _ 0 h2).symm
    rw [e1, e2, ← hyx, hgd]
    exact hbv

/-- Witness for C7 at a concrete 2 by 2 input. -/
theorem box_blur_radius_zero_identity_witness :
    box_blur_impl [3, 7, 11, 15] 2 2 [0] =
      { success := true, error := "", data := [3, 7, 11, 15] } :=
  box_blur_radius_zero_identity [3, 7, 11, 15] 2 2 [0] (by decide)
    (by decide) (by decide) (by decide)

/-- Claim C5: the Region Filler fails with the arity message when fewer than
3 parameters are supplied, and with the bounds message when the truncated
start coordinates are outside the grid; in both cases the returned data is
empty (and the input buffer, passed by value, is untouched). -/
theorem flood_fill_failure_cases :
    (∀ (pixels : List Nat) (w h : Nat) (params : List Int),
      params.length < 3 →
      flood_fill_impl pixels w h params =
        some { success := false
               error := "Flood fill requires x, y, fill_value parameters"
               data := [] }) ∧
    (∀ (pixels : List Nat) (w h : Nat) (params : List Int),
      3 ≤ params.length →
      (w ≤ f32_as_usize (params.getD 0 0) ∨
        h ≤ f32_as_usize (params.getD 1 0)) →
      flood_fill_impl pixels w h params =
        some { success := false
               error := "Fill coordinates out of bounds"
               data := [] }) := by
  constructor
  · intro pixels w h params hlt
    simp only [flood_fill_impl]
    rw [if_pos hlt]
  · intro pixels w h params hge hoob
    simp only [flood_fill_impl]
    rw [if_neg (by omega : ¬params.length < 3)]
    have hcond : f32_as_usize (params.getD 0 0) ≥ w ∨
        f32_as_usize (params.getD 1 0) ≥ h := by omega
    rw [if_pos hcond]

/-- Witness for C5 with too few parameters. -/
theorem flood_fill_failure_cases_witness :
    flood_fill_impl [5] 1 1 [0, 0] =
      some { success := false
             error := "Flood fill requires x, y, fill_value parameters"
             data := [] } :=
  flood_fill_failure_cases.1 [5] 1 1 [0, 0] (by decide)

theorem floodLoop_isSome (w h orig fill : Nat) (hne : orig ≠ fill) :
    ∀ (n : Nat) (b : List Nat) (stack : List (Nat × Nat)),
      countOrig b orig ≤ n → b.length = w * h →
      (floodLoop w h orig fill hne b stack).isSome := by
  intro n
  induction n with
  | zero =>
    intro b stack hcount hlen
    induction stack with
    | nil => simp [floodLoop]
    | cons p rest ih =>
      obtain ⟨x, y⟩ := p
      rw [floodLoop]
      by_cases hcoord : x ≥ w ∨ y ≥ h
      · rw [if_pos hcoord]
        exact ih
      · rw [if_neg hcoord]
        have hidx : y * w + x < b.length := by
          rw [hlen]
          exact flat_lt w h y x (by omega) (by omega)
        rw [dif_pos hidx]
        by_cases hval : b.getD (y * w + x) 0 ≠ orig
        · rw [dif_pos hval]
          exact ih
        · exfalso
          have hget : b[y * w + x] = orig := by
            have := List.getD_eq_getElem b 0 hidx
            omega
          have hpos : 0 < countOrig b orig := by
            unfold countOrig
            exact List.count_pos_iff.mpr (hget ▸ List.getElem_mem hidx)
          omega
  | succ n ihn =>
    intro b stack hcount hlen
    induction stack with
    | nil => simp [floodLoop]
    | cons p rest ih =>
      obtain ⟨x, y⟩ := p
      rw [floodLoop]
      by_cases hcoord : x ≥ w ∨ y ≥ h
      · rw [if_pos hcoord]
        exact ih
      · rw [if_neg hcoord]
        have hidx : y * w + x < b.length := by
          rw [hlen]
          exact flat_lt w h y x (by omega) (by omega)
        rw [dif_pos hidx]
        by_cases hval : b.getD (y * w + x) 0 ≠ orig
        · rw [dif_pos hval]
          exact ih
        · rw [dif_neg hval]
          apply ihn
          · have hlt := countOrig_set_lt b (y * w + x) fill orig hidx
              (not_not.mp hval) (Ne.symm hne)
            omega
          · rw [List.length_set]
            exact hlen

/-- Claim C6: the Region Filler work-list loop terminates with a successful
result on every in-contract input (buffer length width*height, at least 3
parameters, in-bounds start): the count of cells holding the original value
strictly decreases on every productive step and only such steps push new
work. -/
theorem flood_fill_terminates :
    (∀ (pixels : List Nat) (w h : Nat) (params : List Int),
      pixels.length = w * h → 3 ≤ params.length →
      f32_as_usize (params.getD 0 0) < w →
      f32_as_usize (params.getD 1 0) < h →
      ∃ out, flood_fill_impl pixels w h params =
        some { success := true, error := "", data := out }) ∧
    (∀ (b : List Nat) (i v a : Nat), i < b.length → b.getD i 0 = a →
      v ≠ a → countOrig (b.set i v) a < countOrig b a) := by
  constructor
  · intro pixels w h params hlen hp3 hx hy
    simp only [flood_fill_impl]
    rw [if_neg (by omega : ¬params.length < 3)]
    rw [if_neg (by omega : ¬(f32_as_usize (params.getD 0 0) ≥ w ∨
      f32_as_usize (params.getD 1 0) ≥ h))]
    have hidx : f32_as_usize (params.getD 1 0) * w +
        f32_as_usize (params.getD 0 0) < pixels.length := by
      rw [hlen]
      exact flat_lt w h _ _ hy hx
    rw [dif_pos hidx]
    by_cases hfe : pixels.getD (f32_as_usize (params.getD 1 0) * w +
        f32_as_usize (params.getD 0 0)) 0 = f32_as_u8 (params.getD 2 0)
    · rw [dif_pos hfe]
      exact ⟨pixels, rfl⟩
    · rw [dif_neg hfe]
      have hsome := floodLoop_isSome w h _ _ hfe
        (countOrig pixels (pixels.getD (f32_as_usize (params.getD 1 0) * w +
          f32_as_usize (params.getD 0 0)) 0)) pixels
        [(f32_as_usize (params.getD 0 0), f32_as_usize (params.getD 1 0))]
        le_rfl hlen
      obtain ⟨bout, hbout⟩ := Option.isSome_iff_exists.mp hsome
      rw [hbout]
      exact ⟨bout, rfl⟩
  · intro b i v a hi hv hne
    exact countOrig_set_lt b i v a hi hv hne

/-- Witness for C6: a productive flood-fill step strictly decreases the
count of cells holding the original value. -/
theorem flood_fill_terminates_witness :
    countOrig ([5].set 0 7) 5 < countOrig [5] 5 :=
  flood_fill_terminates.2 [5] 0 7 5 (by decide) (by decide) (by decide)

/-- Claim C3: process_safe with an operation name distinct from the four
known names returns the failure whose message is "Unknown operation: "
followed by the name, with empty data (the pure embedding passes the input
buffer by value, so it is untouched). -/
theorem process_safe_unknown_operation (op : String) (pixels : List Nat)
    (w h : Nat) (params : List Int) (h1 : op ≠ "floyd_steinberg")
    (h2 : op ≠ "bayer_dither") (h3 : op ≠ "flood_fill")
    (h4 : op ≠ "box_blur") :
    process_safe op pixels w h params =
      some { success := false
             error := "Unknown operation: " ++ op
             data := [] } := by
  simp only [process_safe, if_neg h1, if_neg h2, if_neg h3, if_neg h4]

/-- Witness for C3 with a concrete unknown name. -/
theorem process_safe_unknown_operation_witness :
    process_safe "invert" [1, 2] 2 1 [3] =
      some { success := false
             error := "Unknown operation: " ++ "invert"
             data := [] } :=
  process_safe_unknown_operation "invert" [1, 2] 2 1 [3] (by decide)
    (by decide) (by decide) (by decide)

theorem wf_floyd (pixels : List Nat) (w h : Nat) (params : List Int) :
    ((floyd_steinberg_impl pixels w h params).success = true →
      (floyd_steinberg_impl pixels w h params).error = "") ∧
    ((floyd_steinberg_impl pixels w h params).success = false →
      (floyd_steinberg_impl pixels w h params).data = []) := by
  simp only [floyd_steinberg_impl]
  split
  · exact ⟨fun hc => Bool.noConfusion hc, fun _ => rfl⟩
  · exact ⟨fun _ => rfl, fun hc => Bool.noConfusion hc⟩

theorem wf_bayer (pixels : List Nat) (w h : Nat) (params : List Int) :
    ((bayer_dither_impl pixels w h params).success = true →
      (bayer_dither_impl pixels w h params).error = "") ∧
    ((bayer_dither_impl pixels w h params).success = false →
      (bayer_dither_impl pixels w h params).data = []) := by
  simp only [bayer_dither_impl]
  split
  · exact ⟨fun hc => Bool.noConfusion hc, fun _ => rfl⟩
  · split
    · exact ⟨fun hc => Bool.noConfusion hc, fun _ => rfl⟩
    · exact ⟨fun _ => rfl, fun hc => Bool.noConfusion hc⟩

theorem wf_box (pixels : List Nat) (w h : Nat) (params : List Int) :
    ((box_blur_impl pixels w h params).success = true →
      (box_blur_impl pixels w h params).error = "") ∧
    ((box_blur_impl pixels w h params).success = false →
      (box_blur_impl pixels w h params).data = []) := by
  simp only [box_blur_impl]
  split
  · exact ⟨fun hc => Bool.noConfusion hc, fun _ => rfl⟩
  · exact ⟨fun _ => rfl, fun hc => Bool.noConfusion hc⟩

theorem wf_flood (pixels : List Nat) (w h : Nat) (params : List Int)
    (r : ProcessResult) (hr : flood_fill_impl pixels w h params = some r) :
    (r.success = true → r.error = "") ∧
    (r.success = false → r.data = []) := by
  simp only [flood_fill_impl] at hr
  split at hr
  · injection hr with hh
    subst hh
    exact ⟨fun hc => Bool.noConfusion hc, fun _ => rfl⟩
  · split at hr
    · injection hr with hh
      subst hh
      exact ⟨fun hc => Bool.noConfusion hc, fun _ => rfl⟩
    · split at hr
      · split at hr
        · injection hr with hh
          subst hh
          exact ⟨fun _ => rfl, fun hc => Bool.noConfusion hc⟩
        · rcases Option.map_eq_some'.mp hr with ⟨b, _, hrb⟩
          subst hrb
          exact ⟨fun _ => rfl, fun hc => Bool.noConfusion hc⟩
      · exact Option.noConfusion hr

/-- Claim C9: every Result that process_safe returns has an empty error
message when the success flag is true and an empty data buffer when the
success flag is false; the two payloads are never both populated. -/
theorem process_result_invariant (op : String) (pixels : List Nat)
    (w h : Nat) (params : List Int) (r : ProcessResult)
    (hr : process_safe op pixels w h params = some r) :
    (r.success = true → r.error = "") ∧
    (r.success = false → r.data = []) := by
  simp only [process_safe] at hr
  split at hr
  · injection hr with hh
    subst hh
    exact wf_floyd pixels w h params
  · split at hr
    · injection hr with hh
      subst hh
      exact wf_bayer pixels w h params
    · split at hr
      · exact wf_flood pixels w h params r hr
      · split at hr
        · injection hr with hh
          subst hh
          exact wf_box pixels w h params
        · injection hr with hh
          subst hh
          exact ⟨fun hc => Bool.noConfusion hc, fun _ => rfl⟩

/-- Witness for C9 on the unknown-operation result. -/
theorem process_result_invariant_witness :
    (({ success := false, error := "Unknown operation: nope", data := [] } :
        ProcessResult).success = true →
      ({ success := false, error := "Unknown operation: nope", data := [] } :
        ProcessResult).error = "") ∧
    (({ success := false, error := "Unknown operation: nope", data := [] } :
        ProcessResult).success = false →
      ({ success := false, error := "Unknown operation: nope", data := [] } :
        ProcessResult).data = []) :=
  process_result_invariant "nope" [] 0 0 []
    { success := false, error := "Unknown operation: nope", data := [] }
    (by decide)
